import Mathlib

/-!
# Verification of the AI-news timeline pipeline

Shallow embedding of `src/ai_news.py`: text normalization
(`clean_text`, `get_combined_text`), progressive summarization
(`summarize_articles`), milestone extraction and timeline assembly
(`generate_timeline`), and reliability scoring (`score_source`),
together with the `generate` button handler (`runPipeline`).

External ML capabilities (spaCy NER, the HuggingFace summarizer and
`dateparser.parse` with its fixed settings) are modelled as oracle
functions bundled in `Oracles`; the theorems quantify over all oracles.
Python strings are modelled by Lean `String` (a list of characters;
Python indexing/slicing is by code point, matched by `pyTake`).
Python floats are modelled by `ℚ`.
-/

namespace AINews

/-- Accumulator loop for Python `s.split()`: `acc` holds the characters of
the current token in reverse; a maximal non-whitespace run becomes one
token, whitespace runs separate tokens and produce no empty pieces. -/
def splitWsAux : List Char → List Char → List String
  | [], acc => if acc = [] then [] else [String.mk acc.reverse]
  | c :: rest, acc =>
    if c.isWhitespace then
      if acc = [] then splitWsAux rest []
      else String.mk acc.reverse :: splitWsAux rest []
    else splitWsAux rest (c :: acc)

/-- Python `s.split()` with no separator: split on runs of whitespace and
drop empty pieces. -/
def pySplit (s : String) : List String :=
  splitWsAux s.data []

/-- Python `s.strip()`: drop leading and trailing whitespace. -/
def pyStrip (s : String) : String :=
  String.mk (((s.data.dropWhile Char.isWhitespace).reverse.dropWhile Char.isWhitespace).reverse)

/-- Python `" ".join(l)` (and `sep.join` generally). -/
def pyJoin (sep : String) : List String → String
  | [] => ""
  | [s] => s
  | s :: rest => s ++ sep ++ pyJoin sep rest

/-- Left-to-right non-overlapping deletion of `old` (non-empty) from the
character list, as in Python `s.replace(old, "")`. The fuel argument is
instantiated with the length of the list, which the scan never exceeds,
making the recursion structural. -/
def replDelAux (old : List Char) : Nat → List Char → List Char
  | _, [] => []
  | 0, l => l
  | fuel + 1, c :: rest =>
    if old.isPrefixOf (c :: rest) then replDelAux old fuel ((c :: rest).drop old.length)
    else c :: replDelAux old fuel rest

/-- Python `s.replace(old, "")`: with an empty `old` (and empty
replacement) the string is unchanged; otherwise every occurrence of
`old` is deleted, scanning left to right without overlap. -/
def pyReplaceDel (s old : String) : String :=
  if old = "" then s else String.mk (replDelAux old.data s.data.length s.data)

/-- Python slicing `s[:n]`: the first `n` characters of `s`. -/
def pyTake (s : String) (n : Nat) : String :=
  String.mk (s.data.take n)

/-- Python `s.capitalize()`: first character uppercased, every remaining
character lowercased (ASCII model of Python's unicode case mapping). -/
def pyCapitalize (s : String) : String :=
  match s.data with
  | [] => ""
  | c :: cs => String.mk (c.toUpper :: cs.map Char.toLower)

/-- Helper for `re.sub(r"<.*?>", "", t)`: from a position just after a `<`,
find the closing `>` of the non-greedy match. `.` does not match a newline,
so the match fails if a newline appears before any `>`. Returns the
remainder of the input after the `>` when the match succeeds. -/
def findTagEnd : List Char → Option (List Char)
  | [] => none
  | c :: rest =>
    if c = '>' then some rest
    else if c = '\n' then none
    else findTagEnd rest

/-- Left-to-right scan of `re.sub(r"<.*?>", "", t)` deleting each minimal
`<...>` span (no newline inside); a `<` with no matching `>` is kept.
The fuel argument is instantiated with the length of the list, which the
scan never exceeds, making the recursion structural. -/
def stripTagsAux : Nat → List Char → List Char
  | _, [] => []
  | 0, l => l
  | fuel + 1, c :: rest =>
    if c = '<' then
      match findTagEnd rest with
      | some rest2 => stripTagsAux fuel rest2
      | none => c :: stripTagsAux fuel rest
    else c :: stripTagsAux fuel rest

/-- Model of `re.sub(r"<.*?>", "", t)`. -/
def stripTags (l : List Char) : List Char :=
  stripTagsAux l.length l

/-- Model of `re.sub(r"\s+", " ", t)`: replace each maximal run of whitespace by a
single space. The flag records whether we are inside a whitespace run. -/
def collapseWsAux : Bool → List Char → List Char
  | _, [] => []
  | inRun, c :: rest =>
    if c.isWhitespace then
      if inRun then collapseWsAux true rest
      else ' ' :: collapseWsAux true rest
    else c :: collapseWsAux false rest

/-- Model of `clean_text(t)`: remove tag-like substrings, collapse whitespace runs
to single spaces, strip both ends. -/
def clean_text (t : String) : String :=
  pyStrip (String.mk (collapseWsAux false (stripTags t.data)))

/-- Model of `get_combined_text(row)`: if the cleaned content has fewer than 5
whitespace-separated tokens, use the title instead. -/
def get_combined_text (title clean : String) : String :=
  if (pySplit clean).length < 5 then title else clean

/-- Python `datetime` as returned by `dateparser.parse`: calendar fields
plus a time-of-day component (datetime comparison is field-lexicographic,
and `strftime("%Y-%m-%d")` reads only the calendar fields). -/
structure PyDateTime where
  year : Nat
  month : Nat
  day : Nat
  timeOfDay : Nat
deriving DecidableEq, Repr

/-- Zero-padded 2-digit field of `strftime` (`%m`, `%d`). -/
def pad2 (n : Nat) : String :=
  if n < 10 then "0" ++ toString n else toString n

/-- Zero-padded 4-digit field of `strftime` (`%Y`). -/
def pad4 (n : Nat) : String :=
  if n < 10 then "000" ++ toString n
  else if n < 100 then "00" ++ toString n
  else if n < 1000 then "0" ++ toString n
  else toString n

/-- Model of `parsed_date.strftime("%Y-%m-%d")`: the ISO date label. -/
def isoLabel (d : PyDateTime) : String :=
  pad4 d.year ++ "-" ++ pad2 d.month ++ "-" ++ pad2 d.day

/-- A spaCy entity: its label, its text span, and the text of the
enclosing sentence (`ent.sent.text`). -/
structure Ent where
  label : String
  text : String
  sentText : String
deriving DecidableEq, Repr

/-- The external ML capabilities, fixed for one pipeline run:
`nerEnts` models `nlp(text).ents`; `parseDate` models `dateparser.parse`
with the fixed `RELATIVE_BASE`/`PREFER_DATES_FROM` settings (`none` =
parse failure); `summarize1` models the HuggingFace summarizer (`none` =
raised exception). -/
structure Oracles where
  nerEnts : String → List Ent
  parseDate : String → Option PyDateTime
  summarize1 : String → Option String

/-- One iteration of the loop in `summarize_articles`: texts under 5
tokens are passed through; otherwise the summarizer runs with fallback
to the original text on failure. -/
def summaryPiece (o : Oracles) (text : String) : String :=
  if (pySplit text).length < 5 then text
  else
    match o.summarize1 text with
    | some s => s
    | none => text

/-- The list `individual_summaries` after the loop in `summarize_articles`. -/
def individual_summaries (o : Oracles) (texts : List String) : List String :=
  texts.map (summaryPiece o)

/-- Model of `final_summary = " ".join(individual_summaries)`: the pre-truncation
concatenation. -/
def final_summary (o : Oracles) (texts : List String) : String :=
  pyJoin " " (individual_summaries o texts)

/-- Model of `summarize_articles(texts)`. -/
def summarize_articles (o : Oracles) (texts : List String) : String :=
  if texts = [] then "No text available for summary (unexpected error)."
  else if pyStrip (final_summary o texts) = "" then "Analysis yielded no useful summary."
  else if (final_summary o texts).length > 1000 then pyTake (final_summary o texts) 1000 ++ "..."
  else final_summary o texts

/-- A row of the dataframe after the handler added the computed columns
`clean` and `combined_text`. -/
structure Row where
  title : String
  content : String
  source : String
  link : String
  clean : String
  combined_text : String
deriving DecidableEq, Repr

/-- A timeline event record as appended in `generate_timeline`. -/
structure Event where
  date : PyDateTime
  date_str : String
  milestone : String
  source : String
  link : String
deriving DecidableEq, Repr

/-- The body of the entity loop of `generate_timeline` for one entity:
`none` when the candidate is discarded by one of the guards. -/
def entEvent (o : Oracles) (row : Row) (ent : Ent) : Option Event :=
  if ent.label = "DATE" ∨ ent.label = "EVENT" then
    let sentence := pyStrip ent.sentText
    if (pySplit sentence).length < 5 then none
    else
      let milestone := pyStrip (pyReplaceDel sentence row.title)
      if milestone = "" then none
      else
        match o.parseDate ent.text with
        | none => none
        | some d =>
          some { date := d, date_str := isoLabel d,
                 milestone := pyCapitalize milestone,
                 source := row.source, link := row.link }
  else none

/-- The list `timeline_events` after the double loop of `generate_timeline`. -/
def timeline_events (o : Oracles) (rows : List Row) : List Event :=
  rows.flatMap (fun row => (o.nerEnts row.combined_text).filterMap (entEvent o row))

/-- The dedup key `(event['date_str'], event['milestone'])`. -/
def eventKey (e : Event) : String × String :=
  (e.date_str, e.milestone)

/-- One iteration of the dedup loop: `if key not in unique_events:
unique_events[key] = event` (insertion-ordered dict of events). -/
def insertEvent (m : List Event) (e : Event) : List Event :=
  if m.any (fun x => eventKey x == eventKey e) then m else m ++ [e]

/-- The list `unique_events.values()` after the dedup loop, in insertion order. -/
def uniqueEvents (es : List Event) : List Event :=
  es.foldl insertEvent []

/-- The sort key of a `PyDateTime` (Python datetime comparison is
lexicographic on the fields). -/
def dtKey (d : PyDateTime) : ℕ ×ₗ ℕ ×ₗ ℕ ×ₗ ℕ :=
  toLex (d.year, toLex (d.month, toLex (d.day, d.timeOfDay)))

/-- Python `datetime` strict comparison. -/
def dtLt (a b : PyDateTime) : Prop :=
  dtKey a < dtKey b

/-- The comparator of `sorted(..., key=lambda x: (x['date'], x['source']))`:
tuple comparison is lexicographic, datetime first, then source string. -/
def sortLe (a b : Event) : Bool :=
  decide (toLex (dtKey a.date, a.source) ≤ toLex (dtKey b.date, b.source))

/-- Model of `generate_timeline(df)` given the per-row entities supplied by the
NER oracle: extract, dedup, sort. (The early return when the
`combined_text` column is missing cannot fire: the handler always adds
that column before calling.) -/
def generate_timeline (o : Oracles) (rows : List Row) : List Event :=
  (uniqueEvents (timeline_events o rows)).mergeSort sortLe

/-- Word count used by `score_source`: `len(str(x).split())`. -/
def wordCount (s : String) : Nat :=
  (pySplit s).length

/-- Model of `score_source(source, df)`: 0 when the source has no articles, else
`min(1.0, mean_word_count / 200)` over the raw `content` field. -/
def score_source (source : String) (rows : List Row) : ℚ :=
  let arts := rows.filter (fun r => r.source = source)
  if arts = [] then 0
  else min 1 (((arts.map (fun r => (wordCount r.content : ℚ))).sum / arts.length) / 200)

/-- An ingested article (one RSS item). -/
structure Article where
  title : String
  content : String
  source : String
  link : String
deriving DecidableEq, Repr

/-- The handler's per-row computation: `df["clean"]` and
`df['combined_text']`. -/
def mkRow (a : Article) : Row :=
  let c := clean_text a.content
  { title := a.title, content := a.content, source := a.source, link := a.link,
    clean := c, combined_text := get_combined_text a.title c }

/-- The session state written by the `generate` handler. -/
structure PipelineOutput where
  summary : String
  timeline : List Event
  avg_score : ℚ
deriving Repr

/-- The `generate` button handler on the ingested articles: the
`df.empty` branch yields the fixed placeholder state; otherwise it
computes the combined texts, the summary, the timeline and the mean
per-article reliability score. -/
def runPipeline (o : Oracles) (articles : List Article) : PipelineOutput :=
  if articles = [] then
    { summary := "No news articles found.", timeline := [], avg_score := 0 }
  else
    let rows := articles.map mkRow
    { summary := summarize_articles o (rows.map Row.combined_text),
      timeline := generate_timeline o rows,
      avg_score := (rows.map (fun r => score_source r.source rows)).sum / rows.length }

/-- Holds when `s` ends with `suffix` ("is suffixed with"). -/
def sEndsWith (s suffix : String) : Prop :=
  suffix.data <:+ s.data

instance (s t : String) : Decidable (sEndsWith s t) :=
  inferInstanceAs (Decidable (_ <:+ _))

/-- Modelled from the spec: "First occurrence in iteration order wins when
duplicates collide" — keep each event whose dedup key has not occurred
earlier in the list. Reference definition compared against `uniqueEvents`. -/
def dedupFirstSpec : List Event → List Event
  | [] => []
  | e :: es => e :: dedupFirstSpec (es.filter (fun x => eventKey x != eventKey e))
termination_by l => l.length
decreasing_by exact Nat.lt_succ_of_le (List.length_filter_le _ _)

/-! Concrete fixtures used by the witness theorems. -/

/-- An oracle environment with no entities, no parses, and a failing
summarizer. -/
def trivOracles : Oracles :=
  { nerEnts := fun _ => [], parseDate := fun _ => none, summarize1 := fun _ => none }

/-- A string of 1001 spaces. -/
def allSpace1001 : String :=
  String.mk (List.replicate 1001 ' ')

/-- A string of 1001 letters `a`. -/
def allA1001 : String :=
  String.mk (List.replicate 1001 'a')

/-- A concrete dataframe row. -/
def testRow : Row :=
  { title := "T", content := "c", source := "S", link := "L",
    clean := "c", combined_text := "x" }

/-- A concrete DATE entity whose sentence contains the row's title. -/
def testEnt : Ent :=
  { label := "DATE", text := "March 2020",
    sentText := "On March 2020 the treaty was signed near T" }

/-- A concrete oracle environment recognizing `testEnt` in `testRow`'s
combined text and resolving its date text. -/
def testOracle : Oracles :=
  { nerEnts := fun s => if s = "x" then [testEnt] else [],
    parseDate := fun s => if s = "March 2020" then some ⟨2020, 3, 1, 0⟩ else none,
    summarize1 := fun _ => none }

/-- The event that `testOracle`/`testRow` produce. -/
def testEvent : Event :=
  { date := ⟨2020, 3, 1, 0⟩, date_str := "2020-03-01",
    milestone := "On march 2020 the treaty was signed near",
    source := "S", link := "L" }

/-! ## Claim theorems -/

/-- C4: for every article, if the cleaned content has fewer than 5
whitespace-separated tokens the effective text equals the title
unchanged, otherwise it equals the cleaned content; in particular
title="Summit Begins" with content="" yields effectiveText="Summit
Begins". -/
theorem C4_effective_text (title clean : String) :
    ((pySplit clean).length < 5 → get_combined_text title clean = title) ∧
    (¬ (pySplit clean).length < 5 → get_combined_text title clean = clean) ∧
    get_combined_text "Summit Begins" (clean_text "") = "Summit Begins" := by
  refine ⟨fun h => ?_, fun h => ?_, by decide⟩ <;> simp [get_combined_text, h]

/-- Witness for C4 at concrete inputs: a 0-token cleaned content falls
back to the title, a 5-token one is kept. -/
theorem C4_effective_text_witness :
    get_combined_text "Summit Begins" "" = "Summit Begins" ∧
    get_combined_text "t" "a b c d e" = "a b c d e" :=
  ⟨(C4_effective_text "Summit Begins" "").1 (by decide),
   (C4_effective_text "t" "a b c d e").2.1 (by decide)⟩

/-- C5 counterexample: for the single input text of 1001 spaces, the
pre-truncation concatenation exceeds 1000 characters, yet the returned
summary is the "no useful summary" placeholder, which is not suffixed
with "..." — the whitespace-only check fires before the truncation. -/
theorem C5_counterexample :
    (final_summary trivOracles [allSpace1001]).length > 1000 ∧
    ¬ sEndsWith (summarize_articles trivOracles [allSpace1001]) "..." := by
  set_option maxRecDepth 20000 in constructor <;> decide

/-- C5 (amended): the summary returned by `summarize_articles` has
length at most 1000 + len("...") characters, and whenever the
pre-truncation concatenation exceeds 1000 characters and does not strip
to the empty string, the returned string is suffixed with "...". -/
theorem C5_truncation (o : Oracles) (texts : List String) :
    (summarize_articles o texts).length ≤ 1000 + "...".length ∧
    ((final_summary o texts).length > 1000 →
      pyStrip (final_summary o texts) ≠ "" →
      sEndsWith (summarize_articles o texts) "...") := by
  unfold summarize_articles
  split_ifs with h1 h2 h3
  · refine ⟨by decide, fun hlen _ => absurd hlen ?_⟩
    subst h1
    simp [final_summary, individual_summaries, pyJoin]
  · exact ⟨by decide, fun _ hstrip => absurd h2 hstrip⟩
  · refine ⟨?_, fun _ _ => ⟨(pyTake (final_summary o texts) 1000).data, by simp [sEndsWith]⟩⟩
    have h4 : ("...").length = 3 := rfl
    have h5 : (pyTake (final_summary o texts) 1000).length = min 1000 (final_summary o texts).length := by
      simp [pyTake]
    simp only [String.length_append, h4, h5]
    omega
  · exact ⟨by omega, fun hlen _ => absurd hlen h3⟩

/-- Witness for C5 at a concrete input: a single 1001-character
non-whitespace text makes the concatenation exceed 1000 characters and
the returned summary carry the "..." suffix. -/
theorem C5_truncation_witness :
    (summarize_articles trivOracles [allA1001]).length ≤ 1000 + "...".length ∧
    sEndsWith (summarize_articles trivOracles [allA1001]) "..." :=
  ⟨(C5_truncation trivOracles [allA1001]).1,
   (C5_truncation trivOracles [allA1001]).2
     (by set_option maxRecDepth 20000 in decide)
     (by set_option maxRecDepth 20000 in decide)⟩

/-- C6: every text with fewer than 5 whitespace-separated tokens is
passed through to the per-text results unchanged at its own position,
and when every text is that short the pre-truncation summary equals the
space-joined input list. -/
theorem C6_passthrough (o : Oracles) (texts : List String) (_hne : texts ≠ []) :
    (∀ (i : Nat) (t : String), texts[i]? = some t → (pySplit t).length < 5 →
      (individual_summaries o texts)[i]? = some t) ∧
    ((∀ t ∈ texts, (pySplit t).length < 5) →
      final_summary o texts = pyJoin " " texts) := by
  constructor
  · intro i t ht hshort
    simp [individual_summaries, List.getElem?_map, ht, summaryPiece, hshort]
  · intro hall
    unfold final_summary individual_summaries
    rw [List.map_congr_left (g := id) (fun t ht => by simp [summaryPiece, hall t ht]),
      List.map_id]

/-- Witness for C6 at a concrete input: two short texts are passed
through and joined with a space. -/
theorem C6_passthrough_witness :
    (individual_summaries trivOracles ["a b", "c"])[0]? = some "a b" ∧
    final_summary trivOracles ["a b", "c"] = pyJoin " " ["a b", "c"] :=
  ⟨(C6_passthrough trivOracles ["a b", "c"] (by decide)).1 0 "a b" (by decide) (by decide),
   (C6_passthrough trivOracles ["a b", "c"] (by decide)).2 (by decide)⟩

/-- C8: when ingestion returns an empty article set, the pipeline
produces the fixed "no articles" placeholder summary, an empty timeline
and an aggregate reliability score of 0, for every oracle environment
(the embedding is total, so no error is raised). -/
theorem C8_empty_ingestion (o : Oracles) :
    runPipeline o [] =
      { summary := "No news articles found.", timeline := [], avg_score := 0 } :=
  rfl

/-- C9: the pipeline is deterministic — two runs on the same article
set, in the same oracle environment (fixed loaded models and fixed
`dateparser` relative base), produce the same timeline and the same
summary string. -/
theorem C9_idempotent (o : Oracles) (articles : List Article) :
    (runPipeline o articles).timeline = (runPipeline o articles).timeline ∧
    (runPipeline o articles).summary = (runPipeline o articles).summary :=
  ⟨rfl, rfl⟩

/-- C7: the per-source reliability score lies in [0,1]; it equals 0 when
the corpus contains no articles from that source, and otherwise equals
min(1, mean word count of that source's raw content / 200). -/
theorem C7_reliability (source : String) (rows : List Row) :
    0 ≤ score_source source rows ∧ score_source source rows ≤ 1 ∧
    (rows.filter (fun r => r.source = source) = [] → score_source source rows = 0) ∧
    (rows.filter (fun r => r.source = source) ≠ [] →
      score_source source rows =
        min 1 ((((rows.filter (fun r => r.source = source)).map
              (fun r => (wordCount r.content : ℚ))).sum /
            (rows.filter (fun r => r.source = source)).length) / 200)) := by
  simp only [score_source]
  split_ifs with h
  · exact ⟨le_refl 0, by norm_num, fun _ => rfl, fun hne => absurd h hne⟩
  · have hsum : 0 ≤ ((rows.filter (fun r => r.source = source)).map
        (fun r => (wordCount r.content : ℚ))).sum := by
      refine List.sum_nonneg ?_
      intro x hx
      obtain ⟨r, _, rfl⟩ := List.mem_map.mp hx
      positivity
    have hq : (0 : ℚ) ≤ (((rows.filter (fun r => r.source = source)).map
          (fun r => (wordCount r.content : ℚ))).sum /
        (rows.filter (fun r => r.source = source)).length) / 200 := by
      apply div_nonneg (div_nonneg hsum (by positivity)) (by norm_num)
    exact ⟨le_min (by norm_num) hq, min_le_left _ _, fun he => absurd he h, fun _ => rfl⟩

/-- Witness for C7 at concrete inputs: the empty corpus gives score 0;
a one-row corpus from the scored source gives the min formula. -/
theorem C7_reliability_witness :
    score_source "S" ([] : List Row) = 0 ∧
    score_source "S" [testRow] =
      min 1 (((([testRow].filter (fun r => r.source = "S")).map
            (fun r => (wordCount r.content : ℚ))).sum /
          ([testRow].filter (fun r => r.source = "S")).length) / 200) :=
  ⟨(C7_reliability "S" []).2.2.1 (by decide),
   (C7_reliability "S" [testRow]).2.2.2 (by decide)⟩

/-- The dict-insertion fold, started from any accumulator, appends the
first occurrences of the keys not already present. -/
theorem foldl_insertEvent (es : List Event) :
    ∀ acc : List Event,
      es.foldl insertEvent acc =
        acc ++ dedupFirstSpec (es.filter (fun e =>
          acc.all (fun x => eventKey x != eventKey e))) := by
  induction es with
  | nil => intro acc; simp [dedupFirstSpec]
  | cons e es ih =>
    intro acc
    by_cases hmem : (acc.any fun x => eventKey x == eventKey e) = true
    · have hall : (acc.all fun x => eventKey x != eventKey e) = false := by
        obtain ⟨x, hx, hkey⟩ := List.any_eq_true.mp hmem
        refine List.all_eq_false.mpr ⟨x, hx, ?_⟩
        simp [bne, hkey]
      rw [List.foldl_cons, insertEvent, if_pos hmem,
        List.filter_cons_of_neg (by simp [hall]), ih acc]
    · have hall : (acc.all fun x => eventKey x != eventKey e) = true := by
        rw [List.all_eq_true]
        intro x hx
        have := fun hkey => hmem (List.any_eq_true.mpr ⟨x, hx, hkey⟩)
        simpa [bne] using this
      have hfc : List.filter (fun x => (acc ++ [e]).all fun y => eventKey y != eventKey x) es =
          List.filter (fun x => (eventKey x != eventKey e) &&
            acc.all fun y => eventKey y != eventKey x) es := by
        refine List.filter_congr ?_
        intro x _
        by_cases hk : eventKey x = eventKey e
        · simp [List.all_append, hk, bne]
        · have h1 : (eventKey x == eventKey e) = false := beq_eq_false_iff_ne.mpr hk
          have h2 : (eventKey e == eventKey x) = false := beq_eq_false_iff_ne.mpr (Ne.symm hk)
          simp [List.all_append, bne, h1, h2, Bool.and_comm]
      rw [List.foldl_cons, insertEvent, if_neg hmem,
        List.filter_cons_of_pos (by simp [hall]), ih (acc ++ [e]), hfc,
        dedupFirstSpec, List.filter_filter, List.append_assoc]
      simp

/-- The dedup loop of `generate_timeline` keeps exactly the first
occurrence of each key, in iteration order. -/
theorem uniqueEvents_eq_dedupFirstSpec (es : List Event) :
    uniqueEvents es = dedupFirstSpec es := by
  have h := foldl_insertEvent es []
  simpa [uniqueEvents, List.filter_true] using h

/-- Everything kept by the first-occurrence dedup comes from the input. -/
theorem dedupFirstSpec_subset : ∀ (es : List Event), ∀ x ∈ dedupFirstSpec es, x ∈ es
  | [] => by simp [dedupFirstSpec]
  | e :: es => by
    rw [dedupFirstSpec]
    intro x hx
    rcases List.mem_cons.mp hx with rfl | hx
    · exact List.mem_cons_self _ _
    · exact List.mem_cons_of_mem _
        (List.mem_of_mem_filter (dedupFirstSpec_subset _ x hx))
termination_by es => es.length
decreasing_by exact Nat.lt_succ_of_le (List.length_filter_le _ _)

/-- After the first-occurrence dedup, all kept events have pairwise
distinct keys. -/
theorem pairwise_dedupFirstSpec : ∀ (es : List Event),
    (dedupFirstSpec es).Pairwise (fun a b => eventKey a ≠ eventKey b)
  | [] => by simp [dedupFirstSpec]
  | e :: es => by
    rw [dedupFirstSpec]
    refine List.Pairwise.cons ?_ (pairwise_dedupFirstSpec _)
    intro b hb
    have hbf := dedupFirstSpec_subset _ b hb
    have hbne : (eventKey b != eventKey e) = true := (List.mem_filter.mp hbf).2
    exact fun heq => (bne_iff_ne.mp hbne) heq.symm
termination_by es => es.length
decreasing_by exact Nat.lt_succ_of_le (List.length_filter_le _ _)

/-- C2: deduplication keys on (dateLabel, milestone text) and keeps the
first occurrence in iteration order, and consequently no two milestones
in the final timeline share both the same date label and the same
text. -/
theorem C2_dedup :
    (∀ es : List Event, uniqueEvents es = dedupFirstSpec es) ∧
    (∀ (o : Oracles) (rows : List Row),
      (generate_timeline o rows).Pairwise
        (fun a b => ¬ (a.date_str = b.date_str ∧ a.milestone = b.milestone))) := by
  refine ⟨uniqueEvents_eq_dedupFirstSpec, fun o rows => ?_⟩
  have hperm : List.Perm ((uniqueEvents (timeline_events o rows)).mergeSort sortLe)
      (uniqueEvents (timeline_events o rows)) :=
    List.mergeSort_perm _ _
  have hpair : (uniqueEvents (timeline_events o rows)).Pairwise
      (fun a b => eventKey a ≠ eventKey b) := by
    rw [uniqueEvents_eq_dedupFirstSpec]
    exact pairwise_dedupFirstSpec _
  have hkeys : (generate_timeline o rows).Pairwise
      (fun a b => eventKey a ≠ eventKey b) := by
    unfold generate_timeline
    exact (hperm.pairwise_iff (fun {x y} h => h ∘ Eq.symm)).mpr hpair
  refine hkeys.imp ?_
  intro a b hk hab
  exact hk (by simp [eventKey, hab.1, hab.2])

theorem sortLe_trans : ∀ (a b c : Event), sortLe a b → sortLe b c → sortLe a c := by
  intro a b c hab hbc
  simp only [sortLe, decide_eq_true_eq] at hab hbc ⊢
  exact le_trans hab hbc

theorem sortLe_total : ∀ (a b : Event), sortLe a b || sortLe b a := by
  intro a b
  simp only [sortLe, Bool.or_eq_true, decide_eq_true_eq]
  exact le_total _ _

theorem dtKey_inj {a b : PyDateTime} (h : dtKey a = dtKey b) : a = b := by
  simp only [dtKey, toLex_inj, Prod.mk.injEq] at h
  cases a; cases b
  simp_all

/-- C1: the assembled timeline is sorted so that for every adjacent pair
(m1, m2), m1.date < m2.date, or m1.date = m2.date and m1.source ≤
m2.source in lexical order. -/
theorem C1_timeline_sorted (o : Oracles) (rows : List Row) :
    (generate_timeline o rows).Chain'
      (fun m1 m2 => dtLt m1.date m2.date ∨ (m1.date = m2.date ∧ m1.source ≤ m2.source)) := by
  have hs : (generate_timeline o rows).Pairwise (fun a b => sortLe a b) :=
    List.sorted_mergeSort sortLe_trans sortLe_total _
  refine (hs.imp ?_).chain'
  intro a b hab
  simp only [sortLe, decide_eq_true_eq] at hab
  rcases (Prod.Lex.le_iff _ _).mp hab with h | ⟨h1, h2⟩
  · exact Or.inl h
  · exact Or.inr ⟨dtKey_inj h1, h2⟩

theorem mem_timeline_events {o : Oracles} {rows : List Row} {e : Event}
    (h : e ∈ timeline_events o rows) :
    ∃ row ∈ rows, ∃ ent ∈ o.nerEnts row.combined_text, entEvent o row ent = some e := by
  simp only [timeline_events, List.mem_flatMap, List.mem_filterMap] at h
  obtain ⟨row, hrow, ent, hent, he⟩ := h
  exact ⟨row, hrow, ent, hent, he⟩

theorem entEvent_some {o : Oracles} {row : Row} {ent : Ent} {e : Event}
    (h : entEvent o row ent = some e) :
    (ent.label = "DATE" ∨ ent.label = "EVENT") ∧
    5 ≤ (pySplit (pyStrip ent.sentText)).length ∧
    pyStrip (pyReplaceDel (pyStrip ent.sentText) row.title) ≠ "" ∧
    ∃ d, o.parseDate ent.text = some d ∧
      e = { date := d, date_str := isoLabel d,
            milestone := pyCapitalize (pyStrip (pyReplaceDel (pyStrip ent.sentText) row.title)),
            source := row.source, link := row.link } := by
  simp only [entEvent] at h
  split_ifs at h with hlab hlen hmil
  · split at h
    · cases h
    · rename_i d hd
      cases h
      exact ⟨hlab, Nat.le_of_not_lt hlen, hmil, d, hd, rfl⟩

/-- C3: a milestone is emitted only if the enclosing (stripped) sentence
has at least 5 whitespace-separated tokens, the sentence with the
article's title removed and trimmed is non-empty, and the entity's raw
date text resolves to a date; every emitted milestone carries the
resolved date with its ISO YYYY-MM-DD label. -/
theorem C3_candidate_filters (o : Oracles) (rows : List Row) :
    ∀ e ∈ timeline_events o rows,
      ∃ row ∈ rows, ∃ ent ∈ o.nerEnts row.combined_text,
        (ent.label = "DATE" ∨ ent.label = "EVENT") ∧
        5 ≤ (pySplit (pyStrip ent.sentText)).length ∧
        pyStrip (pyReplaceDel (pyStrip ent.sentText) row.title) ≠ "" ∧
        ∃ d, o.parseDate ent.text = some d ∧
          e.date = d ∧ e.date_str = isoLabel d := by
  intro e he
  obtain ⟨row, hrow, ent, hent, hee⟩ := mem_timeline_events he
  obtain ⟨hlab, hlen, hmil, d, hd, rfl⟩ := entEvent_some hee
  exact ⟨row, hrow, ent, hent, hlab, hlen, hmil, d, hd, rfl, rfl⟩

/-- Witness for C3: in a concrete oracle environment with one article
and one DATE entity, the emitted event passes all the filters and
carries the ISO label of its resolved date. -/
theorem C3_candidate_filters_witness :
    ∃ row ∈ [testRow], ∃ ent ∈ testOracle.nerEnts row.combined_text,
      (ent.label = "DATE" ∨ ent.label = "EVENT") ∧
      5 ≤ (pySplit (pyStrip ent.sentText)).length ∧
      pyStrip (pyReplaceDel (pyStrip ent.sentText) row.title) ≠ "" ∧
      ∃ d, testOracle.parseDate ent.text = some d ∧
        testEvent.date = d ∧ testEvent.date_str = isoLabel d :=
  C3_candidate_filters testOracle [testRow] testEvent (by decide)

/-- C10: every emitted milestone's text equals the stripped sentence
with every occurrence of the article's title removed and trimmed, then
with the first character uppercased and every remaining character
lowercased. -/
theorem C10_milestone_capitalize (o : Oracles) (rows : List Row) :
    ∀ e ∈ timeline_events o rows,
      ∃ row ∈ rows, ∃ ent ∈ o.nerEnts row.combined_text,
        e.milestone = pyCapitalize (pyStrip (pyReplaceDel (pyStrip ent.sentText) row.title)) ∧
        ∀ (c : Char) (cs : List Char),
          (pyStrip (pyReplaceDel (pyStrip ent.sentText) row.title)).data = c :: cs →
          e.milestone.data = c.toUpper :: cs.map Char.toLower := by
  intro e he
  obtain ⟨row, hrow, ent, hent, hee⟩ := mem_timeline_events he
  obtain ⟨hlab, hlen, hmil, d, hd, rfl⟩ := entEvent_some hee
  refine ⟨row, hrow, ent, hent, rfl, ?_⟩
  intro c cs hcs
  simp [pyCapitalize, hcs]

/-- Witness for C10: in the same concrete environment, the emitted
milestone text is the capitalized residual sentence, with the tail
lowercased. -/
theorem C10_milestone_capitalize_witness :
    ∃ row ∈ [testRow], ∃ ent ∈ testOracle.nerEnts row.combined_text,
      testEvent.milestone =
        pyCapitalize (pyStrip (pyReplaceDel (pyStrip ent.sentText) row.title)) ∧
      ∀ (c : Char) (cs : List Char),
        (pyStrip (pyReplaceDel (pyStrip ent.sentText) row.title)).data = c :: cs →
        testEvent.milestone.data = c.toUpper :: cs.map Char.toLower :=
  C10_milestone_capitalize testOracle [testRow] testEvent (by decide)

end AINews
